import Mathlib

/-!
Verification of the vttablet reconciliation logic of the vitess-operator
(pkg/controller/vitessshard/reconcile_tablets.go).

The Go code is shallowly embedded: pure fragments become Lean functions,
Kubernetes API calls become explicit inputs (an `Except` value standing for
the outcome of a Get, a `TopoState` standing for the outcome of the topology
lookups), machine integers become `Int`/`Nat`, and times are integers counting
nanoseconds since the epoch (with 0 standing for the Go zero time, matching
the `IsZero` test).  String-keyed Go maps are modelled as association lists
with last-write-wins insertion; Go map reads of a missing key yield the zero
value, modelled with `getD`.

Functions whose source lives in this repository but outside the provided file
(the planetscale v2 API helpers, the drain package, the update package, the
generic reconciler engine, and vttablet.UID / vttablet.PodName) are modelled
from the specification; each such definition carries a doc comment starting
with "Modelled from the spec:".  External library functions with fixed,
documented semantics (k8s.io podutils, vitess topoproto) are embedded per
those semantics.
-/

/-- Mirrors corev1.ConditionStatus (True / False / Unknown). -/
inductive ConditionStatus where
  | condTrue
  | condFalse
  | condUnknown
deriving DecidableEq, Repr

/-- Mirrors k8s.ConditionStatus: converts a Go bool to a condition status. -/
def k8sConditionStatus (b : Bool) : ConditionStatus :=
  if b then ConditionStatus.condTrue else ConditionStatus.condFalse

/-- Association-list model of a Go map with string keys. -/
abbrev StrMap := List (String × String)

/-- Go map write m[k] = v: last write wins, previous binding removed. -/
def setEntry {α : Type} (m : List (String × α)) (k : String) (v : α) : List (String × α) :=
  m.filter (fun p => p.1 != k) ++ [(k, v)]

/-- Go map read m[k] for a string-valued map: missing keys read as "". -/
def mapGet (m : StrMap) (k : String) : String :=
  (List.lookup k m).getD ""

theorem lookup_setEntry_self {α : Type} (m : List (String × α)) (k : String) (v : α) :
    List.lookup k (setEntry m k v) = some v := by
  unfold setEntry
  induction m with
  | nil => simp [List.lookup]
  | cons p rest ih =>
    by_cases h : p.1 = k
    · simp only [List.filter_cons, h]
      simpa using ih
    · have hne : (p.1 != k) = true := by simpa [bne_iff_ne] using h
      simp only [List.filter_cons, hne, if_pos, List.cons_append, List.lookup]
      have : (k == p.1) = false := by
        simp [beq_iff_eq]
        exact fun he => h he.symm
      simp [this, ih]

theorem lookup_setEntry_ne {α : Type} (m : List (String × α)) (k k' : String) (v : α)
    (h : k' ≠ k) : List.lookup k' (setEntry m k v) = List.lookup k' m := by
  unfold setEntry
  induction m with
  | nil =>
    have hkk : (k' == k) = false := by simp [beq_iff_eq, h]
    simp [List.lookup, hkk]
  | cons p rest ih =>
    by_cases hp : p.1 = k
    · have hk : (p.1 != k) = false := by simp [bne_iff_ne, hp]
      have hlk : (k' == p.1) = false := by
        simp only [beq_iff_eq, hp]
        simpa using h
      simp only [List.filter_cons, hk, if_neg (by simp : ¬ (false = true))]
      rw [ih, List.lookup, hlk]
    · have hk : (p.1 != k) = true := by simpa [bne_iff_ne] using hp
      simp only [List.filter_cons, hk, if_pos rfl, List.cons_append, List.lookup]
      by_cases hq : k' = p.1
      · simp [hq]
      · have h1 : (k' == p.1) = false := by simp [beq_iff_eq, hq]
        simp [h1, ih]

/-- Injective code of a character list, used to model the tablet UID function. -/
def chListEnc : List Char → Nat
  | [] => 0
  | c :: rest => Nat.pair c.toNat (chListEnc rest) + 1

theorem chListEnc_inj : ∀ a b : List Char, chListEnc a = chListEnc b → a = b := by
  intro a
  induction a with
  | nil =>
    intro b h
    cases b with
    | nil => rfl
    | cons c rest => simp [chListEnc] at h
  | cons c rest ih =>
    intro b h
    cases b with
    | nil => simp [chListEnc] at h
    | cons c2 rest2 =>
      simp only [chListEnc, Nat.add_right_cancel_iff] at h
      rw [Nat.pair_eq_pair] at h
      obtain ⟨h1, h2⟩ := h
      have hc : c = c2 := by
        apply Char.ext
        apply UInt32.ext
        simpa [Char.toNat] using h1
      rw [hc, ih rest2 h2]

/-- Injective code of a string. -/
def strEnc (s : String) : Nat := chListEnc s.toList

theorem strEnc_inj (a b : String) (h : strEnc a = strEnc b) : a = b := by
  have h2 := chListEnc_inj _ _ h
  cases a
  cases b
  simp only [String.toList] at h2
  exact congrArg String.mk h2

/-- Mirrors vts.Spec.KeyRange; only its collision-safe name is observed here. -/
structure KeyRange where
  safeName : String
deriving DecidableEq, Repr

/-- Mirrors topodatapb.TabletAlias. -/
structure TabletAlias where
  cell : String
  uid : Nat
deriving DecidableEq, Repr

/-- Left-pads a decimal string with zeros. -/
def padZeros (s : String) (n : Nat) : String :=
  if s.length ≥ n then s else String.mk (List.replicate (n - s.length) '0') ++ s

namespace topoproto

/-- External vitess library topoproto.TabletAliasString: `cell-uid` with the
uid printed in ten zero-padded digits. -/
def TabletAliasString (a : TabletAlias) : String :=
  a.cell ++ "-" ++ padZeros (toString a.uid) 10

/-- External vitess library topoproto.TabletAliasEqual via proto.Equal; the
left argument is the shard record primary alias pointer, which may be nil
(`none`), in which case it is unequal to the non-nil right argument. -/
def TabletAliasEqual (left : Option TabletAlias) (right : TabletAlias) : Bool :=
  match left with
  | none => false
  | some l => decide (l = right)

end topoproto

/-- Mirrors the planetscale v2 vttablet template (pool.Vttablet): its
ExtraFlags map, with every other template field collapsed into one opaque
payload component `other` that the compiler copies verbatim. -/
structure VttabletTemplate where
  extraFlags : StrMap
  other : String
deriving DecidableEq, Repr

/-- Mirrors a resource.Quantity: `value` is what Value() returns, `str` is
what String() returns. -/
structure Quantity where
  value : Int
  str : String
deriving DecidableEq, Repr

/-- The Go zero Quantity (read of a missing map entry): Value() is 0. -/
def zeroQuantity : Quantity := { value := 0, str := "0" }

/-- Mirrors corev1.ResourceRequirements-backed PVC spec template: only the
storage request map and an opaque remainder are observed. -/
structure PVCSpecTemplate where
  requests : List (String × Quantity)
  other : String
deriving DecidableEq, Repr

/-- Mirrors a planetscale v2 backup location entry. -/
structure BackupLocation where
  name : String
  annotations : StrMap
  other : String
deriving DecidableEq, Repr

/-- Mirrors a planetscale v2 tablet pool.  Payload fields that the compiler
merely copies into the emitted spec are opaque strings / options. -/
structure TabletPool where
  cell : String
  typ : String
  replicas : Int
  backupLocationName : String
  vttablet : VttabletTemplate
  mysqld : Option String
  externalDatastore : Option String
  dataVolumeClaimTemplate : Option PVCSpecTemplate
  annotations : StrMap
  affinity : Option String
  extraEnv : Option String
  extraVolumes : Option String
  extraLabels : StrMap
  initContainers : Option String
  sidecarContainers : Option String
  extraVolumeMounts : Option String
  tolerations : Option String
  topologySpreadConstraints : Option String
deriving DecidableEq, Repr

/-- Mirrors VitessShardSpec (the fields reconcile_tablets.go reads). -/
structure VitessShardSpec where
  keyRange : KeyRange
  name : String
  tabletPools : List TabletPool
  backupLocations : List BackupLocation
  extraVitessFlags : StrMap
  zoneMap : StrMap
  globalLockserver : String
  images : String
  imagePullPolicies : String
  imagePullSecrets : String
  databaseName : String
  databaseInitScriptSecret : String
  backupEngine : String
deriving DecidableEq, Repr

/-- Mirrors the VitessShard object (metadata fields read by the code). -/
structure VitessShard where
  namespaceName : String
  labels : StrMap
  generation : Int
  spec : VitessShardSpec
deriving DecidableEq, Repr

/-- Modelled from the spec: planetscale v2 label keys (pkg/apis, not under
src/); opaque distinct tokens. -/
def componentLabel : String := "planetscale.com/component"

def clusterLabel : String := "planetscale.com/cluster"

def keyspaceLabel : String := "planetscale.com/keyspace"

def shardLabel : String := "planetscale.com/shard"

def cellLabel : String := "planetscale.com/cell"

def tabletUidLabel : String := "planetscale.com/tablet-uid"

def tabletTypeLabel : String := "planetscale.com/tablet-type"

def tabletIndexLabel : String := "planetscale.com/tablet-index"

def vttabletComponentName : String := "vttablet"

/-- Modelled from the spec: vts.Spec.BackupLocation(name) (pkg/apis, not
under src/) resolves the backup location by name lookup against the
backup-location list of the shard. -/
def VitessShardSpec.BackupLocation (s : VitessShardSpec) (name : String) : Option BackupLocation :=
  s.backupLocations.find? (fun b => b.name == name)

namespace update

/-- Modelled from the spec: update.StringMap (pkg/operator/update, not under
src/) merges the source map into the destination, source entries overriding
destination entries with the same key. -/
def StringMap (dst src : StrMap) : StrMap :=
  src.foldl (fun d kv => setEntry d kv.1 kv.2) dst

/-- Modelled from the spec: update.Annotations merges the same way as
update.StringMap. -/
def Annotations (dst src : StrMap) : StrMap :=
  StringMap dst src

end update

namespace drain

/-- Modelled from the spec: the drain-capability marker key owned by the
drain subsystem (pkg/operator/drain, not under src/). -/
def SupportedAnnotationKey : String := "drain.planetscale.com/supported"

end drain

namespace vttablet

/-- Modelled from the spec: vttablet.UID (pkg/operator/vttablet, not under
src/) is "a pure function of (cell, keyspace, key range, role, ordinal) -
never derived from cluster-assigned names"; modelled as an injective
encoding of exactly that tuple. -/
def UID (cell keyspace : String) (keyRange : KeyRange) (tabletType : String)
    (tabletIndex : Nat) : Nat :=
  Nat.pair (strEnc cell)
    (Nat.pair (strEnc keyspace)
      (Nat.pair (strEnc keyRange.safeName)
        (Nat.pair (strEnc tabletType) tabletIndex)))

/-- Mirrors vttablet.Spec, the fully resolved per-tablet configuration that
vttabletSpecs emits (field for field as constructed at lines 313-344 of
reconcile_tablets.go). -/
structure Spec where
  globalLockserver : String
  labels : StrMap
  images : String
  imagePullPolicies : String
  imagePullSecrets : String
  index : Int
  keyRange : KeyRange
  tabAlias : TabletAlias
  aliasStr : String
  zone : String
  vttablet : VttabletTemplate
  mysqld : Option String
  externalDatastore : Option String
  typ : String
  dataVolumePVCSpec : Option PVCSpecTemplate
  dataVolumePVCName : String
  keyspaceName : String
  databaseName : String
  databaseInitScriptSecret : String
  annotations : StrMap
  backupLocation : Option BackupLocation
  backupEngine : String
  affinity : Option String
  extraEnv : Option String
  extraVolumes : Option String
  extraLabels : StrMap
  initContainers : Option String
  sidecarContainers : Option String
  extraVolumeMounts : Option String
  tolerations : Option String
  topologySpreadConstraints : Option String
deriving DecidableEq, Repr

/-- Modelled from the spec: vttablet.PodName (not under src/) derives the
object name deterministically from cluster name plus alias. -/
def PodName (clusterName : String) (a : TabletAlias) : String :=
  clusterName ++ "-vttablet-" ++ topoproto.TabletAliasString a

end vttablet

/-- One loop body of vttabletSpecs (reconcile_tablets.go lines 281-345):
builds the spec of the tablet with 1-based ordinal `tabletIndex` of `pool`.
The Go local `vttabletcpy` (shallow copy of pool.Vttablet whose ExtraFlags
is then replaced) appears as a functional record update of the copy, leaving
the pool template untouched. -/
def poolTabletSpec (vts : VitessShard) (parentLabels : StrMap) (pool : TabletPool)
    (tabletIndex : Nat) : vttablet.Spec :=
  let keyspaceName := mapGet vts.labels keyspaceLabel
  let backupLocation := vts.spec.BackupLocation pool.backupLocationName
  let tabletAlias : TabletAlias :=
    { cell := pool.cell
      uid := vttablet.UID pool.cell keyspaceName vts.spec.keyRange pool.typ tabletIndex }
  let labels :=
    setEntry
      (setEntry
        (setEntry (setEntry parentLabels cellLabel tabletAlias.cell)
          tabletUidLabel (toString tabletAlias.uid))
        tabletTypeLabel pool.typ)
      tabletIndexLabel (toString tabletIndex)
  let extraFlags :=
    update.StringMap (update.StringMap [] vts.spec.extraVitessFlags) pool.vttablet.extraFlags
  let vttabletcpy : VttabletTemplate := { pool.vttablet with extraFlags := extraFlags }
  let anns0 : StrMap := [(drain.SupportedAnnotationKey, "ensure that the tablet is not a primary")]
  let anns1 := update.Annotations anns0 pool.annotations
  let anns2 :=
    match backupLocation with
    | none => anns1
    | some bl => update.Annotations anns1 bl.annotations
  { globalLockserver := vts.spec.globalLockserver
    labels := labels
    images := vts.spec.images
    imagePullPolicies := vts.spec.imagePullPolicies
    imagePullSecrets := vts.spec.imagePullSecrets
    index := (tabletIndex : Int)
    keyRange := vts.spec.keyRange
    tabAlias := tabletAlias
    aliasStr := topoproto.TabletAliasString tabletAlias
    zone := mapGet vts.spec.zoneMap tabletAlias.cell
    vttablet := vttabletcpy
    mysqld := pool.mysqld
    externalDatastore := pool.externalDatastore
    typ := pool.typ
    dataVolumePVCSpec := pool.dataVolumeClaimTemplate
    dataVolumePVCName := ""
    keyspaceName := keyspaceName
    databaseName := vts.spec.databaseName
    databaseInitScriptSecret := vts.spec.databaseInitScriptSecret
    annotations := anns2
    backupLocation := backupLocation
    backupEngine := vts.spec.backupEngine
    affinity := pool.affinity
    extraEnv := pool.extraEnv
    extraVolumes := pool.extraVolumes
    extraLabels := pool.extraLabels
    initContainers := pool.initContainers
    sidecarContainers := pool.sidecarContainers
    extraVolumeMounts := pool.extraVolumeMounts
    tolerations := pool.tolerations
    topologySpreadConstraints := pool.topologySpreadConstraints }

/-- The inner loop of vttabletSpecs for one pool: ordinals run 1-based up to
pool.Replicas (int32; a non-positive count yields no tablets, as in Go). -/
def poolTablets (vts : VitessShard) (parentLabels : StrMap) (pool : TabletPool) :
    List vttablet.Spec :=
  (List.range pool.replicas.toNat).map (fun k => poolTabletSpec vts parentLabels pool (k + 1))

/-- Mirrors vttabletSpecs (reconcile_tablets.go lines 269-349): the desired
tablet specs of the shard, pool by pool in order. -/
def vttabletSpecs (vts : VitessShard) (parentLabels : StrMap) : List vttablet.Spec :=
  vts.spec.tabletPools.flatMap (poolTablets vts parentLabels)

/-- The label set reconcileTablets builds for its objects (lines 64-69). -/
def reconcileLabels (vts : VitessShard) : StrMap :=
  [(componentLabel, vttabletComponentName),
   (clusterLabel, mapGet vts.labels clusterLabel),
   (keyspaceLabel, mapGet vts.labels keyspaceLabel),
   (shardLabel, vts.spec.keyRange.safeName)]

/-- Mirrors corev1.PodCondition: type, status, and the last transition time
in nanoseconds (0 stands for the Go zero time, i.e. IsZero). -/
structure PodCondition where
  typ : String
  status : ConditionStatus
  lastTransitionTime : Int
deriving DecidableEq, Repr

/-- Mirrors the fields of corev1.Pod that reconcile_tablets.go reads. -/
structure Pod where
  namespaceName : String
  name : String
  deletionTimestamp : Option Int
  phase : String
  conditions : List PodCondition
  annotations : StrMap
deriving DecidableEq, Repr

namespace podutils

/-- External k8s.io/kubectl podutils: the first condition of type Ready. -/
def GetPodReadyCondition (pod : Pod) : Option PodCondition :=
  pod.conditions.find? (fun c => c.typ == "Ready")

/-- External k8s.io/kubectl podutils.IsPodReady: the Ready condition exists
and has status True. -/
def IsPodReady (pod : Pod) : Bool :=
  match GetPodReadyCondition pod with
  | some c => c.status == ConditionStatus.condTrue
  | none => false

/-- External k8s.io/kubectl podutils.IsPodAvailable: the pod is ready, and
either minReadySeconds is 0 or the Ready condition transitioned at a set
(non-zero) time strictly more than minReadySeconds seconds before `now`. -/
def IsPodAvailable (pod : Pod) (minReadySeconds : Int) (now : Int) : Bool :=
  if !IsPodReady pod then false
  else
    match GetPodReadyCondition pod with
    | none => false
    | some c =>
      (minReadySeconds == 0) ||
        ((c.lastTransitionTime != 0) &&
          decide (c.lastTransitionTime + minReadySeconds * 1000000000 < now))

end podutils

/-- The constant tabletAvailableSeconds = 30 (reconcile_tablets.go line 53). -/
def tabletAvailableSeconds : Int := 30

/-- Mirrors tabletAvailableStatus (lines 370-391).  The second component is
the delay, in nanoseconds, of the requeue the function requests through
resultBuilder.RequeueAfter, if any: the Go call passes
time.Duration(tabletAvailableSeconds), and a Go Duration counts nanoseconds,
so the requested delay is 30 nanoseconds. -/
def tabletAvailableStatus (pod : Pod) (now : Int) : ConditionStatus × Option Int :=
  if pod.deletionTimestamp.isSome then (ConditionStatus.condFalse, none)
  else if podutils.IsPodAvailable pod tabletAvailableSeconds now then
    (ConditionStatus.condTrue, none)
  else
    (ConditionStatus.condFalse, some tabletAvailableSeconds)

/-- Mirrors the global shard record returned by ts.GetShard; PrimaryAlias is
a nullable pointer. -/
structure ShardRecord where
  primaryAlias : Option TabletAlias
deriving DecidableEq, Repr

/-- The outcome of the two external topology-service calls made by
isTabletPrimary: toposerver.Open and ts.GetShard.  Each either succeeds or
fails with an error (a timeout of the bounded context appears as an error). -/
structure TopoState where
  openResult : Except String Unit
  getShardResult : Except String ShardRecord

/-- Mirrors isTabletPrimary (lines 351-368): on Open or GetShard failure it
returns (true, the error); otherwise it compares the shard record primary
alias with the tablet alias. -/
def isTabletPrimary (topo : TopoState) (tabletAlias : TabletAlias) : Bool × Option String :=
  match topo.openResult with
  | Except.error e => (true, some e)
  | Except.ok _ =>
    match topo.getShardResult with
    | Except.error e => (true, some e)
    | Except.ok shard => (topoproto.TabletAliasEqual shard.primaryAlias tabletAlias, none)

/-- Mirrors planetscalev2.OrphanStatus. -/
structure OrphanStatus where
  reason : String
  message : String
deriving DecidableEq, Repr

/-- Mirrors planetscalev2.NewOrphanStatus. -/
def NewOrphanStatus (reason message : String) : OrphanStatus :=
  { reason := reason, message := message }

/-- Mirrors planetscalev2.VitessTabletStatus (the fields written by
reconcile_tablets.go). -/
structure VitessTabletStatus where
  typ : String
  index : Int
  running : ConditionStatus
  ready : ConditionStatus
  available : ConditionStatus
  dataVolumeBound : ConditionStatus
  pendingChanges : String
deriving DecidableEq, Repr

/-- Modelled from the spec: planetscalev2.NewVitessTabletStatus (pkg/apis,
not under src/) creates the eager status entry for a desired tablet before
any live object is observed; its conditions start out unknown. -/
def NewVitessTabletStatus (typ : String) (index : Int) : VitessTabletStatus :=
  { typ := typ
    index := index
    running := ConditionStatus.condUnknown
    ready := ConditionStatus.condUnknown
    available := ConditionStatus.condUnknown
    dataVolumeBound := ConditionStatus.condUnknown
    pendingChanges := "" }

/-- Mirrors the PrepareForTurndown callback of the Pod strategy (lines
224-259).  `drainFinished` is the value of drain.Finished on the pod (the
drain subsystem lives outside src/; when the drain is unfinished the code
also calls drain.Start, an idempotent annotation write on the pod that does
not affect the returned decision).  `statusTablets` are the desired-tablet
status entries of vts.Status.Tablets. -/
def prepareForTurndownPod (drainFinished : Bool) (topo : TopoState)
    (tabletAlias : TabletAlias) (statusTablets : List VitessTabletStatus) :
    Option OrphanStatus :=
  if !drainFinished then
    some (NewOrphanStatus "Draining" "waiting for the tablet to be drained before turn-down")
  else
    match isTabletPrimary topo tabletAlias with
    | (_, some _) =>
      some (NewOrphanStatus "PrimaryUnknown" "unable to determine whether this tablet is the primary")
    | (isPrimary, none) =>
      if isPrimary then
        some (NewOrphanStatus "Primary" "this tablet is the primary")
      else if statusTablets.all (fun t => t.ready == ConditionStatus.condTrue) then
        none
      else
        some (NewOrphanStatus "ShardNotHealthy" "the remaining, desired tablets in the shard are not all healthy")

/-- Outcome of an r.client.Get call: success with the object, or an error
that is or is not a NotFound error. -/
structure K8sGetError where
  isNotFound : Bool
  msg : String
deriving DecidableEq, Repr

/-- Mirrors the PrepareForTurndown callback of the PVC strategy (lines
139-151): the PVC may be deleted only when the Get of the same-named Pod
failed with NotFound; a successful Get or any other error refuses with
reason PodExists. -/
def prepareForTurndownPVC (podGetResult : Except K8sGetError Pod) : Option OrphanStatus :=
  match podGetResult with
  | Except.ok _ =>
    some (NewOrphanStatus "PodExists" "not deleting tablet PVC because tablet Pod still exists")
  | Except.error e =>
    if !e.isNotFound then
      some (NewOrphanStatus "PodExists" "not deleting tablet PVC because tablet Pod still exists")
    else
      none

/-- The annotation key constant of line 57. -/
def observedShardGenerationAnnotationKey : String := "planetscale.com/observed-shard-generation"

/-- One digit-run step of strconv.ParseInt. -/
def digitsVal : List Char → Nat → Option Nat
  | [], acc => some acc
  | c :: rest, acc =>
    if c.isDigit then digitsVal rest (acc * 10 + (c.toNat - 48)) else none

/-- Model of Go strconv.ParseInt(s, 10, 64): an optional sign followed by a
non-empty run of decimal digits, rejected when the value leaves the int64
range; any other string is a parse error (`none`). -/
def parseInt64 (s : String) : Option Int :=
  match s.toList with
  | [] => none
  | c :: rest =>
    let signDigits : Bool × List Char :=
      if c = '-' then (true, rest)
      else if c = '+' then (false, rest)
      else (false, c :: rest)
    match signDigits.2 with
    | [] => none
    | ds =>
      match digitsVal ds 0 with
      | none => none
      | some n =>
        if signDigits.1 then
          if n ≤ 2 ^ 63 then some (-(n : Int)) else none
        else
          if n ≤ 2 ^ 63 - 1 then some (n : Int) else none

/-- Mirrors the generation-tracking tail of the Pod Status callback (lines
201-212): read the observed-shard-generation value of the pod, skip it when
absent or unparseable, and otherwise lower the running field, overwriting
the 0 sentinel. -/
def observeShardGeneration (lowest : Int) (pod : Pod) : Int :=
  let v := mapGet pod.annotations observedShardGenerationAnnotationKey
  if v = "" then lowest
  else
    match parseInt64 v with
    | none => lowest
    | some g => if lowest = 0 ∨ g < lowest then g else lowest

/-- The LowestPodGeneration field over one pass: the Status callback folds
over the observed pods starting from the 0/unset sentinel. -/
def lowestPodGeneration (pods : List Pod) : Int :=
  pods.foldl observeShardGeneration 0

/-- Mirrors corev1.PersistentVolumeClaimCondition. -/
structure PVCCondition where
  typ : String
  status : ConditionStatus
deriving DecidableEq, Repr

/-- Mirrors the fields of corev1.PersistentVolumeClaim read here: the
currently requested resources of its spec and its status conditions. -/
structure PersistentVolumeClaim where
  specRequests : List (String × Quantity)
  statusConditions : List PVCCondition
deriving DecidableEq, Repr

/-- The corev1.ResourceStorage resource name. -/
def resourceStorage : String := "storage"

/-- The corev1.PersistentVolumeClaimFileSystemResizePending condition type. -/
def fileSystemResizePendingType : String := "FileSystemResizePending"

/-- Modelled from the spec: the pvcFilesystemResizeAnnotation key constant is
defined elsewhere in this repository (not under src/); an opaque token. -/
def pvcFilesystemResizeAnnKey : String := "planetscale.com/pvc-filesystem-resize"

/-- The loop of checkPVCFileSystemResizeCondition (lines 432-442): the first
condition whose type is FileSystemResizePending decides (status True), and a
list without such a condition yields false. -/
def checkFSResizeLoop : List PVCCondition → Bool
  | [] => false
  | c :: rest =>
    if c.typ != fileSystemResizePendingType then checkFSResizeLoop rest
    else c.status == ConditionStatus.condTrue

/-- Mirrors checkPVCFileSystemResizeCondition (lines 432-442). -/
def checkPVCFileSystemResizeCondition (pvc : PersistentVolumeClaim) : Bool :=
  checkFSResizeLoop pvc.statusConditions

/-- Mirrors updatePVCFilesystemResizeAnnotation (lines 393-430), returning
the tablet-spec annotations map after the call.  `pvcGetResult` is the
outcome of the r.client.Get of the paired PVC.  Every bail-out path leaves
the annotations unchanged; when every check passes the resize annotation is
written with the String() form of the requested quantity. -/
def updatePVCFilesystemResize (tabletSpec : vttablet.Spec)
    (pvcGetResult : Except K8sGetError PersistentVolumeClaim) : StrMap :=
  match tabletSpec.dataVolumePVCSpec with
  | none => tabletSpec.annotations
  | some pvcSpec =>
    match pvcGetResult with
    | Except.error _ => tabletSpec.annotations
    | Except.ok pvc =>
      match List.lookup resourceStorage pvcSpec.requests with
      | none => tabletSpec.annotations
      | some requestedDiskQuantity =>
        let currentDiskQuantity := (List.lookup resourceStorage pvc.specRequests).getD zeroQuantity
        if currentDiskQuantity.value != requestedDiskQuantity.value then
          tabletSpec.annotations
        else if !checkPVCFileSystemResizeCondition pvc then
          tabletSpec.annotations
        else
          setEntry tabletSpec.annotations pvcFilesystemResizeAnnKey requestedDiskQuantity.str

/-- Association-list model of vts.Status.Tablets. -/
abbrev StatusMap := List (String × VitessTabletStatus)

/-- Go map read of vts.Status.Tablets[alias]; the init loop guarantees the
key is present, so the zero-value default is never observed in practice. -/
def statusGet (m : StatusMap) (k : String) : VitessTabletStatus :=
  (List.lookup k m).getD (NewVitessTabletStatus "" 0)

/-- The init loop of reconcileTablets (lines 91-111) restricted to its
status effect: a status entry for every desired tablet, keyed by alias. -/
def initTabletStatuses (tablets : List vttablet.Spec) : StatusMap :=
  tablets.foldl (fun m t => setEntry m t.aliasStr (NewVitessTabletStatus t.typ t.index)) []

/-- The New callback of the PVC strategy (lines 117-126) restricted to its
status effect: a missing PVC cannot be bound. -/
def pvcNewStatus (m : StatusMap) (t : vttablet.Spec) : StatusMap :=
  let s := statusGet m t.aliasStr
  setEntry m t.aliasStr { s with dataVolumeBound := ConditionStatus.condFalse }

/-- The New callback of the Pod strategy (lines 161-172) restricted to its
status effect: a missing Pod cannot be running, ready or available. -/
def podNewStatus (m : StatusMap) (t : vttablet.Spec) : StatusMap :=
  let s := statusGet m t.aliasStr
  setEntry m t.aliasStr
    { s with
      running := ConditionStatus.condFalse
      ready := ConditionStatus.condFalse
      available := ConditionStatus.condFalse }

/-- Modelled from the spec: the generic ReconcileObjectSet engine (not under
src/) calls New for every desired key with no live object.  For a pass in
which no live object exists at all, the status effect of reconcileTablets is
therefore: seed an entry per desired tablet, then run the PVC New callback
for every tablet that has a data-volume PVC spec (only those keys are in the
PVC desired set, lines 95-100), then run the Pod New callback for every
tablet. -/
def reconcileTabletsStatusNoLive (vts : VitessShard) : StatusMap :=
  let tablets := vttabletSpecs vts (reconcileLabels vts)
  let m0 := initTabletStatuses tablets
  let m1 := tablets.foldl (fun m t => if t.dataVolumePVCSpec.isSome then pvcNewStatus m t else m) m0
  tablets.foldl podNewStatus m1

/-- C1: for a live pod outside the desired set, PrepareForTurndown checks
its gates in the order drain, primary, fleet health, each unsatisfied gate
short-circuiting with its own reason.  An unfinished drain yields the
Draining refusal whatever the topology service would answer (so the primary
check is never consulted), a tablet whose alias is the recorded primary
yields the Primary refusal whatever the fleet health is, a healthy fleet
behind a non-primary, drained tablet authorizes deletion, and an unhealthy
fleet refuses with ShardNotHealthy. -/
theorem prepareForTurndownPod_gate_order
    (topo topo2 : TopoState) (a : TabletAlias) (sts sts2 : List VitessTabletStatus) :
    (prepareForTurndownPod false topo a sts =
        some (NewOrphanStatus "Draining" "waiting for the tablet to be drained before turn-down")
      ∧ prepareForTurndownPod false topo a sts = prepareForTurndownPod false topo2 a sts2)
    ∧ (isTabletPrimary topo a = (true, none) →
        prepareForTurndownPod true topo a sts =
          some (NewOrphanStatus "Primary" "this tablet is the primary"))
    ∧ (isTabletPrimary topo a = (false, none) →
        (∀ t ∈ sts, t.ready = ConditionStatus.condTrue) →
        prepareForTurndownPod true topo a sts = none)
    ∧ (isTabletPrimary topo a = (false, none) →
        (∃ t ∈ sts, t.ready ≠ ConditionStatus.condTrue) →
        prepareForTurndownPod true topo a sts =
          some (NewOrphanStatus "ShardNotHealthy" "the remaining, desired tablets in the shard are not all healthy"))
    ∧ (∀ shard : ShardRecord, topo.openResult = Except.ok () →
        topo.getShardResult = Except.ok shard → shard.primaryAlias = some a →
        prepareForTurndownPod true topo a sts =
          some (NewOrphanStatus "Primary" "this tablet is the primary")) := by
  refine ⟨⟨rfl, rfl⟩, ?_, ?_, ?_, ?_⟩
  · intro h
    simp [prepareForTurndownPod, h]
  · intro h hall
    have hb : sts.all (fun t => t.ready == ConditionStatus.condTrue) = true := by
      rw [List.all_eq_true]
      intro t ht
      simpa [beq_iff_eq] using hall t ht
    simp [prepareForTurndownPod, h, hb]
  · intro h hex
    have hb : sts.all (fun t => t.ready == ConditionStatus.condTrue) = false := by
      obtain ⟨t, ht, hne⟩ := hex
      by_contra hcon
      have : sts.all (fun t => t.ready == ConditionStatus.condTrue) = true := by
        cases hq : sts.all (fun t => t.ready == ConditionStatus.condTrue)
        · exact absurd hq hcon
        · rfl
      rw [List.all_eq_true] at this
      exact hne (by simpa [beq_iff_eq] using this t ht)
    simp [prepareForTurndownPod, h, hb]
  · intro shard hopen hshard hprim
    have hp : isTabletPrimary topo a = (true, none) := by
      simp [isTabletPrimary, hopen, hshard, hprim, topoproto.TabletAliasEqual]
    simp [prepareForTurndownPod, hp]

/-- Closed instance of prepareForTurndownPod_gate_order: an undrained pod is
refused with Draining even when the topology service is unreachable, and a
drained pod whose alias is the shard primary is refused with Primary even
when every desired tablet is ready. -/
theorem prepareForTurndownPod_gate_order_witness :
    prepareForTurndownPod false ⟨Except.error "down", Except.error "down"⟩ ⟨"c", 1⟩ [] =
      some (NewOrphanStatus "Draining" "waiting for the tablet to be drained before turn-down")
    ∧ prepareForTurndownPod true ⟨Except.ok (), Except.ok ⟨some ⟨"c", 1⟩⟩⟩ ⟨"c", 1⟩
        [{ NewVitessTabletStatus "replica" 1 with ready := ConditionStatus.condTrue }] =
      some (NewOrphanStatus "Primary" "this tablet is the primary") := by
  constructor
  · exact (prepareForTurndownPod_gate_order ⟨Except.error "down", Except.error "down"⟩
      ⟨Except.error "down", Except.error "down"⟩ ⟨"c", 1⟩ [] []).1.1
  · exact (prepareForTurndownPod_gate_order ⟨Except.ok (), Except.ok ⟨some ⟨"c", 1⟩⟩⟩
      ⟨Except.ok (), Except.ok ⟨some ⟨"c", 1⟩⟩⟩ ⟨"c", 1⟩
      [{ NewVitessTabletStatus "replica" 1 with ready := ConditionStatus.condTrue }]
      [{ NewVitessTabletStatus "replica" 1 with ready := ConditionStatus.condTrue }]).2.1 rfl

/-- C2: a topology lookup failure fails closed.  A toposerver open error or
a GetShard error makes isTabletPrimary return that error (with true for the
boolean), and any error outcome of isTabletPrimary makes PrepareForTurndown
return the non-nil PrimaryUnknown orphan status, retaining the pod; the
callback has no error channel, so the failure is not propagated to the
reconciliation pass. -/
theorem isTabletPrimary_failure_fails_closed
    (topo : TopoState) (a : TabletAlias) (sts : List VitessTabletStatus) (e : String) :
    (topo.openResult = Except.error e → isTabletPrimary topo a = (true, some e))
    ∧ (topo.getShardResult = Except.error e → (∃ u, topo.openResult = Except.ok u) →
        isTabletPrimary topo a = (true, some e))
    ∧ (∀ b err, isTabletPrimary topo a = (b, some err) →
        prepareForTurndownPod true topo a sts =
          some (NewOrphanStatus "PrimaryUnknown" "unable to determine whether this tablet is the primary")
        ∧ (prepareForTurndownPod true topo a sts).isSome = true) := by
  refine ⟨?_, ?_, ?_⟩
  · intro h
    simp [isTabletPrimary, h]
  · intro h hopen
    obtain ⟨u, hu⟩ := hopen
    simp [isTabletPrimary, h, hu]
  · intro b err h
    constructor
    · simp [prepareForTurndownPod, h]
    · simp [prepareForTurndownPod, h]

/-- Closed instance of isTabletPrimary_failure_fails_closed at a timed-out
topology service. -/
theorem isTabletPrimary_failure_fails_closed_witness :
    isTabletPrimary ⟨Except.error "timeout", Except.error "timeout"⟩ ⟨"c", 1⟩ =
      (true, some "timeout")
    ∧ prepareForTurndownPod true ⟨Except.error "timeout", Except.error "timeout"⟩ ⟨"c", 1⟩ [] =
      some (NewOrphanStatus "PrimaryUnknown" "unable to determine whether this tablet is the primary") := by
  have h := isTabletPrimary_failure_fails_closed
    ⟨Except.error "timeout", Except.error "timeout"⟩ ⟨"c", 1⟩ [] "timeout"
  have h1 := h.1 rfl
  exact ⟨h1, (h.2.2 true "timeout" h1).1⟩

/-- C4 (code bug): a pod that is Ready but not yet past the availability
threshold is reported unavailable with a requeue request, but the requested
delay is time.Duration(tabletAvailableSeconds) = 30 nanoseconds, not the
30-second threshold the spec states: the multiplication by time.Second is
missing.  Here the pod became ready at t = 1e9 ns and now = 1e9 + 1 ns. -/
theorem tabletAvailableStatus_requeue_is_nanoseconds :
    tabletAvailableStatus
      ⟨"ns", "p", none, "Running", [⟨"Ready", ConditionStatus.condTrue, 1000000000⟩], []⟩
      1000000001
      = (ConditionStatus.condFalse, some 30)
    ∧ (30 : Int) ≠ 30 * 1000000000 := by
  exact ⟨rfl, by decide⟩

/-- C10: an undesired PVC may be deleted only when the Get of the same-named
Pod failed with NotFound; a successful Get, and any non-NotFound error,
yield the non-nil PodExists orphan status, retaining the PVC. -/
theorem prepareForTurndownPVC_fails_closed (res : Except K8sGetError Pod) :
    (∀ pod, res = Except.ok pod →
      prepareForTurndownPVC res =
        some (NewOrphanStatus "PodExists" "not deleting tablet PVC because tablet Pod still exists"))
    ∧ (∀ e, res = Except.error e → e.isNotFound = false →
      prepareForTurndownPVC res =
        some (NewOrphanStatus "PodExists" "not deleting tablet PVC because tablet Pod still exists"))
    ∧ (∀ e, res = Except.error e → e.isNotFound = true →
      prepareForTurndownPVC res = none) := by
  refine ⟨?_, ?_, ?_⟩
  · intro pod h
    simp [prepareForTurndownPVC, h]
  · intro e h hnf
    simp [prepareForTurndownPVC, h, hnf]
  · intro e h hnf
    simp [prepareForTurndownPVC, h, hnf]

/-- Closed instance of prepareForTurndownPVC_fails_closed: NotFound
authorizes deletion, a non-NotFound error and an existing pod refuse. -/
theorem prepareForTurndownPVC_fails_closed_witness :
    prepareForTurndownPVC (Except.error ⟨true, "not found"⟩) = none
    ∧ prepareForTurndownPVC (Except.error ⟨false, "timeout"⟩) =
        some (NewOrphanStatus "PodExists" "not deleting tablet PVC because tablet Pod still exists")
    ∧ prepareForTurndownPVC (Except.ok ⟨"ns", "p", none, "Running", [], []⟩) =
        some (NewOrphanStatus "PodExists" "not deleting tablet PVC because tablet Pod still exists") := by
  refine ⟨?_, ?_, ?_⟩
  · exact (prepareForTurndownPVC_fails_closed (Except.error ⟨true, "not found"⟩)).2.2
      ⟨true, "not found"⟩ rfl rfl
  · exact (prepareForTurndownPVC_fails_closed (Except.error ⟨false, "timeout"⟩)).2.1
      ⟨false, "timeout"⟩ rfl rfl
  · exact (prepareForTurndownPVC_fails_closed (Except.ok ⟨"ns", "p", none, "Running", [], []⟩)).1
      ⟨"ns", "p", none, "Running", [], []⟩ rfl

/-- C3 counterexample: a pod that is not terminating and has been Ready for
exactly the 30-second threshold (ready-condition transition at t = 1e9 ns,
now = 1e9 + 30e9 ns, so ready for at least 30 seconds) is still reported
unavailable, because IsPodAvailable demands that the transition time plus
the threshold be strictly before now. -/
theorem tabletAvailable_at_exact_threshold :
    (tabletAvailableStatus
      ⟨"ns", "p", none, "Running", [⟨"Ready", ConditionStatus.condTrue, 1000000000⟩], []⟩
      (1000000000 + 30 * 1000000000)).1 = ConditionStatus.condFalse
    ∧ ((1000000000 + 30 * 1000000000) : Int) - 1000000000 ≥ tabletAvailableSeconds * 1000000000 := by
  exact ⟨rfl, by decide⟩

/-- C3 (amended): the Available condition computed by tabletAvailableStatus
is True exactly when the pod has no deletion timestamp, its first Ready
condition has status True with a set (non-zero) last transition time, and
that transition time plus the 30-second threshold lies strictly before now
(continuously Ready for strictly more than 30 seconds). -/
theorem tabletAvailableStatus_true_iff (pod : Pod) (now : Int) :
    (tabletAvailableStatus pod now).1 = ConditionStatus.condTrue ↔
      (pod.deletionTimestamp = none ∧
        ∃ c, podutils.GetPodReadyCondition pod = some c ∧
          c.status = ConditionStatus.condTrue ∧
          c.lastTransitionTime ≠ 0 ∧
          c.lastTransitionTime + tabletAvailableSeconds * 1000000000 < now) := by
  unfold tabletAvailableStatus
  cases hdel : pod.deletionTimestamp with
  | some t =>
    constructor
    · intro h
      exact ConditionStatus.noConfusion h
    · rintro ⟨h1, -⟩
      exact Option.noConfusion h1
  | none =>
    cases hc : podutils.GetPodReadyCondition pod with
    | none =>
      have hav : podutils.IsPodAvailable pod tabletAvailableSeconds now = false := by
        unfold podutils.IsPodAvailable podutils.IsPodReady
        rw [hc]
        rfl
      rw [hav]
      constructor
      · intro h
        exact ConditionStatus.noConfusion h
      · rintro ⟨-, c2, hc2, -, -, -⟩
        exact Option.noConfusion hc2
    | some c =>
      cases hst : c.status with
      | condTrue =>
        have hready : podutils.IsPodReady pod = true := by
          unfold podutils.IsPodReady
          rw [hc]
          simp [hst]
        have hav : podutils.IsPodAvailable pod tabletAvailableSeconds now =
            ((c.lastTransitionTime != 0) &&
              decide (c.lastTransitionTime + tabletAvailableSeconds * 1000000000 < now)) := by
          unfold podutils.IsPodAvailable
          rw [hready, hc]
          simp [tabletAvailableSeconds]
        rw [hav]
        cases hb : ((c.lastTransitionTime != 0) &&
            decide (c.lastTransitionTime + tabletAvailableSeconds * 1000000000 < now)) with
        | true =>
          have hbb := hb
          rw [Bool.and_eq_true, bne_iff_ne, decide_eq_true_eq] at hbb
          constructor
          · intro _
            exact ⟨rfl, c, rfl, hst, hbb.1, hbb.2⟩
          · intro _
            rfl
        | false =>
          constructor
          · intro h
            exact ConditionStatus.noConfusion h
          · rintro ⟨-, c2, hc2, -, hn0, hlt⟩
            rw [Option.some.injEq] at hc2
            subst hc2
            rcases Bool.and_eq_false_iff.mp hb with h1 | h1
            · rw [bne_eq_false_iff_eq] at h1
              exact absurd h1 hn0
            · rw [decide_eq_false_iff_not] at h1
              exact absurd hlt h1
      | condFalse =>
        have hav : podutils.IsPodAvailable pod tabletAvailableSeconds now = false := by
          unfold podutils.IsPodAvailable podutils.IsPodReady
          rw [hc]
          simp [hst]
        rw [hav]
        constructor
        · intro h
          exact ConditionStatus.noConfusion h
        · rintro ⟨-, c2, hc2, hs2, -, -⟩
          rw [Option.some.injEq] at hc2
          subst hc2
          rw [hst] at hs2
          exact ConditionStatus.noConfusion hs2
      | condUnknown =>
        have hav : podutils.IsPodAvailable pod tabletAvailableSeconds now = false := by
          unfold podutils.IsPodAvailable podutils.IsPodReady
          rw [hc]
          simp [hst]
        rw [hav]
        constructor
        · intro h
          exact ConditionStatus.noConfusion h
        · rintro ⟨-, c2, hc2, hs2, -, -⟩
          rw [Option.some.injEq] at hc2
          subst hc2
          rw [hst] at hs2
          exact ConditionStatus.noConfusion hs2

/-- The observed-generation value of one pod as the Status callback sees it:
none when the annotation is absent (reads as "") or fails ParseInt. -/
def podParsedGeneration (p : Pod) : Option Int :=
  let v := mapGet p.annotations observedShardGenerationAnnotationKey
  if v = "" then none else parseInt64 v

/-- The parseable observed-generation values of a pod list, in order. -/
def parsedGenerations (pods : List Pod) : List Int :=
  pods.filterMap podParsedGeneration

/-- The lowering step of lines 210-212. -/
def genStep (lowest g : Int) : Int :=
  if lowest = 0 ∨ g < lowest then g else lowest

theorem observeShardGeneration_eq_step (low : Int) (p : Pod) :
    observeShardGeneration low p =
      match podParsedGeneration p with
      | none => low
      | some g => genStep low g := by
  simp only [observeShardGeneration, podParsedGeneration]
  by_cases hv : mapGet p.annotations observedShardGenerationAnnotationKey = ""
  · simp [hv]
  · simp only [if_neg hv]
    cases parseInt64 (mapGet p.annotations observedShardGenerationAnnotationKey) with
    | none => rfl
    | some g => rfl

theorem foldl_observe_eq_foldl_step (pods : List Pod) :
    ∀ low : Int, pods.foldl observeShardGeneration low = (parsedGenerations pods).foldl genStep low := by
  induction pods with
  | nil =>
    intro low
    rfl
  | cons p rest ih =>
    intro low
    rw [List.foldl_cons, observeShardGeneration_eq_step]
    unfold parsedGenerations
    rw [List.filterMap_cons]
    cases hp : podParsedGeneration p with
    | none =>
      exact ih low
    | some g =>
      rw [List.foldl_cons]
      exact ih (genStep low g)

theorem genStep_eq_min_of_nonzero (low g : Int) (hlow : low ≠ 0) :
    genStep low g = min low g := by
  unfold genStep
  rcases lt_or_ge g low with h | h
  · rw [if_pos (Or.inr h), min_def, if_neg (not_le.mpr h)]
  · rw [if_neg, min_def, if_pos h]
    push_neg
    exact ⟨hlow, h⟩

theorem foldl_step_eq_foldl_min (vs : List Int) :
    ∀ low : Int, low ≠ 0 → (∀ g ∈ vs, g ≠ 0) → vs.foldl genStep low = vs.foldl min low := by
  induction vs with
  | nil =>
    intro low _ _
    rfl
  | cons v rest ih =>
    intro low hlow hvs
    rw [List.foldl_cons, List.foldl_cons, genStep_eq_min_of_nonzero low v hlow]
    have hmin : min low v ≠ 0 := by
      rcases min_choice low v with h | h
      · rw [h]; exact hlow
      · rw [h]; exact hvs v (List.mem_cons_self v rest)
    exact ih (min low v) hmin (fun g hg => hvs g (List.mem_cons_of_mem v hg))

theorem foldl_min_le_all (vs : List Int) :
    ∀ low : Int, vs.foldl min low ≤ low ∧ ∀ g ∈ vs, vs.foldl min low ≤ g := by
  induction vs with
  | nil =>
    intro low
    exact ⟨le_refl low, by intro g hg; cases hg⟩
  | cons v rest ih =>
    intro low
    rw [List.foldl_cons]
    obtain ⟨h1, h2⟩ := ih (min low v)
    refine ⟨le_trans h1 (min_le_left low v), ?_⟩
    intro g hg
    rcases List.mem_cons.mp hg with hg | hg
    · rw [hg]
      exact le_trans h1 (min_le_right low v)
    · exact h2 g hg

theorem foldl_min_mem (vs : List Int) :
    ∀ low : Int, vs.foldl min low ∈ low :: vs := by
  induction vs with
  | nil =>
    intro low
    exact List.mem_singleton.mpr rfl
  | cons v rest ih =>
    intro low
    rw [List.foldl_cons]
    rcases List.mem_cons.mp (ih (min low v)) with h | h
    · rw [h]
      rcases min_choice low v with hm | hm
      · rw [hm]; exact List.mem_cons_self _ _
      · rw [hm]; exact List.mem_cons_of_mem _ (List.mem_cons_self _ _)
    · exact List.mem_cons_of_mem _ (List.mem_cons_of_mem _ h)

/-- C5 counterexample: the claim says LowestPodGeneration is the running
minimum over all parseable annotation values, but a parsed value of 0
re-arms the unset sentinel: for values 5, 0, 7 the code records 7, which is
not a minimum (0 was parsed and 7 is not at most 0). -/
theorem lowestPodGeneration_zero_resets :
    lowestPodGeneration
      [⟨"ns", "a", none, "Running", [], [("planetscale.com/observed-shard-generation", "5")]⟩,
       ⟨"ns", "b", none, "Running", [], [("planetscale.com/observed-shard-generation", "0")]⟩,
       ⟨"ns", "c", none, "Running", [], [("planetscale.com/observed-shard-generation", "7")]⟩] = 7
    ∧ parsedGenerations
      [⟨"ns", "a", none, "Running", [], [("planetscale.com/observed-shard-generation", "5")]⟩,
       ⟨"ns", "b", none, "Running", [], [("planetscale.com/observed-shard-generation", "0")]⟩,
       ⟨"ns", "c", none, "Running", [], [("planetscale.com/observed-shard-generation", "7")]⟩] = [5, 0, 7]
    ∧ ¬ ((7 : Int) ≤ 0) := by
  refine ⟨by decide, by decide, by decide⟩

/-- C5 (amended): starting from the 0 sentinel, and as long as no parsed
annotation value is itself 0 (a parsed 0 resets the sentinel), the recorded
LowestPodGeneration is the minimum of the parseable values - pods with an
absent or malformed annotation are skipped - and it stays at the sentinel
when no value parses. -/
theorem lowestPodGeneration_min_of_nonzero (pods : List Pod)
    (h : ∀ g ∈ parsedGenerations pods, g ≠ 0) :
    (parsedGenerations pods = [] → lowestPodGeneration pods = 0)
    ∧ (parsedGenerations pods ≠ [] →
        lowestPodGeneration pods ∈ parsedGenerations pods
        ∧ ∀ g ∈ parsedGenerations pods, lowestPodGeneration pods ≤ g) := by
  have hfold : lowestPodGeneration pods = (parsedGenerations pods).foldl genStep 0 :=
    foldl_observe_eq_foldl_step pods 0
  constructor
  · intro he
    rw [hfold, he]
    rfl
  · intro hne
    obtain ⟨v, vs, hv⟩ := List.exists_cons_of_ne_nil hne
    have hv0 : v ≠ 0 := h v (by rw [hv]; exact List.mem_cons_self v vs)
    have hvs0 : ∀ g ∈ vs, g ≠ 0 := fun g hg => h g (by rw [hv]; exact List.mem_cons_of_mem v hg)
    have hstep : genStep 0 v = v := by simp [genStep]
    have hval : lowestPodGeneration pods = vs.foldl min v := by
      rw [hfold, hv, List.foldl_cons, hstep, foldl_step_eq_foldl_min vs v hv0 hvs0]
    constructor
    · rw [hval, hv]
      exact foldl_min_mem vs v
    · intro g hg
      rw [hv] at hg
      rcases List.mem_cons.mp hg with hg | hg
      · rw [hval, hg]
        exact (foldl_min_le_all vs v).1
      · rw [hval]
        exact (foldl_min_le_all vs v).2 g hg

/-- Closed instance of lowestPodGeneration_min_of_nonzero at the spec
example: annotation values 5, 7, 3 and one pod without the annotation give
3, a lower bound of every parsed value. -/
theorem lowestPodGeneration_min_of_nonzero_witness :
    lowestPodGeneration
      [⟨"ns", "a", none, "Running", [], [("planetscale.com/observed-shard-generation", "5")]⟩,
       ⟨"ns", "b", none, "Running", [], [("planetscale.com/observed-shard-generation", "7")]⟩,
       ⟨"ns", "c", none, "Running", [], [("planetscale.com/observed-shard-generation", "3")]⟩,
       ⟨"ns", "d", none, "Running", [], []⟩] = 3
    ∧ ∀ g ∈ parsedGenerations
      [⟨"ns", "a", none, "Running", [], [("planetscale.com/observed-shard-generation", "5")]⟩,
       ⟨"ns", "b", none, "Running", [], [("planetscale.com/observed-shard-generation", "7")]⟩,
       ⟨"ns", "c", none, "Running", [], [("planetscale.com/observed-shard-generation", "3")]⟩,
       ⟨"ns", "d", none, "Running", [], []⟩], (3 : Int) ≤ g := by
  have h := lowestPodGeneration_min_of_nonzero
    [⟨"ns", "a", none, "Running", [], [("planetscale.com/observed-shard-generation", "5")]⟩,
     ⟨"ns", "b", none, "Running", [], [("planetscale.com/observed-shard-generation", "7")]⟩,
     ⟨"ns", "c", none, "Running", [], [("planetscale.com/observed-shard-generation", "3")]⟩,
     ⟨"ns", "d", none, "Running", [], []⟩] (by decide)
  have hval : lowestPodGeneration
      [⟨"ns", "a", none, "Running", [], [("planetscale.com/observed-shard-generation", "5")]⟩,
       ⟨"ns", "b", none, "Running", [], [("planetscale.com/observed-shard-generation", "7")]⟩,
       ⟨"ns", "c", none, "Running", [], [("planetscale.com/observed-shard-generation", "3")]⟩,
       ⟨"ns", "d", none, "Running", [], []⟩] = 3 := by decide
  refine ⟨hval, ?_⟩
  intro g hg
  have h2 := (h.2 (by decide)).2 g hg
  rw [hval] at h2
  exact h2

theorem checkFSResizeLoop_true_iff (conds : List PVCCondition)
    (huniq : (conds.filter (fun c => c.typ == fileSystemResizePendingType)).length ≤ 1) :
    checkFSResizeLoop conds = true ↔
      ∃ c ∈ conds, c.typ = fileSystemResizePendingType ∧ c.status = ConditionStatus.condTrue := by
  induction conds with
  | nil =>
    simp [checkFSResizeLoop]
  | cons c rest ih =>
    by_cases hty : c.typ = fileSystemResizePendingType
    · have hb : (c.typ != fileSystemResizePendingType) = false := by simp [bne_iff_ne, hty]
      have hfil : (List.filter (fun c => c.typ == fileSystemResizePendingType) (c :: rest)) =
          c :: List.filter (fun c => c.typ == fileSystemResizePendingType) rest := by
        rw [List.filter_cons, if_pos (by simp [hty])]
      rw [hfil] at huniq
      have hrest : List.filter (fun c => c.typ == fileSystemResizePendingType) rest = [] := by
        rw [List.length_cons] at huniq
        have hz : (List.filter (fun c => c.typ == fileSystemResizePendingType) rest).length = 0 := by
          omega
        exact List.length_eq_zero.mp hz
      unfold checkFSResizeLoop
      rw [hb]
      have hred : (if (false : Bool) = true then checkFSResizeLoop rest
          else (c.status == ConditionStatus.condTrue)) = (c.status == ConditionStatus.condTrue) := rfl
      rw [hred]
      cases hst : c.status with
      | condTrue =>
        constructor
        · intro _
          exact ⟨c, List.mem_cons_self c rest, hty, hst⟩
        · intro _
          rfl
      | condFalse =>
        constructor
        · intro h
          exact Bool.noConfusion h
        · rintro ⟨c2, hc2, hty2, hst2⟩
          rcases List.mem_cons.mp hc2 with he | he
          · rw [he, hst] at hst2
            exact ConditionStatus.noConfusion hst2
          · have hmem : c2 ∈ List.filter (fun c => c.typ == fileSystemResizePendingType) rest :=
              List.mem_filter.mpr ⟨he, by simp [hty2]⟩
            rw [hrest] at hmem
            cases hmem
      | condUnknown =>
        constructor
        · intro h
          exact Bool.noConfusion h
        · rintro ⟨c2, hc2, hty2, hst2⟩
          rcases List.mem_cons.mp hc2 with he | he
          · rw [he, hst] at hst2
            exact ConditionStatus.noConfusion hst2
          · have hmem : c2 ∈ List.filter (fun c => c.typ == fileSystemResizePendingType) rest :=
              List.mem_filter.mpr ⟨he, by simp [hty2]⟩
            rw [hrest] at hmem
            cases hmem
    · have hb : (c.typ != fileSystemResizePendingType) = true := by simp [bne_iff_ne, hty]
      have hfil : (List.filter (fun c => c.typ == fileSystemResizePendingType) (c :: rest)) =
          List.filter (fun c => c.typ == fileSystemResizePendingType) rest := by
        rw [List.filter_cons, if_neg (by simp [hty])]
      rw [hfil] at huniq
      unfold checkFSResizeLoop
      rw [hb]
      have hred : (if (true : Bool) = true then checkFSResizeLoop rest
          else (c.status == ConditionStatus.condTrue)) = checkFSResizeLoop rest := rfl
      rw [hred, ih huniq]
      constructor
      · rintro ⟨c2, hc2, hty2, hst2⟩
        exact ⟨c2, List.mem_cons_of_mem c hc2, hty2, hst2⟩
      · rintro ⟨c2, hc2, hty2, hst2⟩
        rcases List.mem_cons.mp hc2 with he | he
        · rw [he] at hty2
          exact absurd hty2 hty
        · exact ⟨c2, he, hty2, hst2⟩

/-- The resize-applicability conditions of the claim, stated in the words of
the spec: the tablet spec configures a data-volume PVC, the paired PVC was
fetched successfully, the tablet spec has a storage request, the PVC
currently requests a storage size equal to the tablet spec request, and the
PVC carries a FileSystemResizePending condition with status True. -/
def resizeAnnApplicable (tabletSpec : vttablet.Spec)
    (pvcGetResult : Except K8sGetError PersistentVolumeClaim) : Prop :=
  ∃ pvcSpec pvc requested,
    tabletSpec.dataVolumePVCSpec = some pvcSpec ∧
    pvcGetResult = Except.ok pvc ∧
    List.lookup resourceStorage pvcSpec.requests = some requested ∧
    ((List.lookup resourceStorage pvc.specRequests).getD zeroQuantity).value = requested.value ∧
    ∃ c ∈ pvc.statusConditions,
      c.typ = fileSystemResizePendingType ∧ c.status = ConditionStatus.condTrue

/-- C6: during a rolling recreate, the filesystem-resize annotation is
written onto the tablet spec exactly when every applicability condition of
the claim holds (assuming the fetched PVC, like any well-formed Kubernetes
object, carries at most one condition of type FileSystemResizePending); any
failed fetch, missing request, size mismatch, or missing/false condition
leaves the spec annotations unchanged, with no error. -/
theorem updatePVCFilesystemResize_iff (tabletSpec : vttablet.Spec)
    (res : Except K8sGetError PersistentVolumeClaim)
    (huniq : ∀ pvc, res = Except.ok pvc →
      (pvc.statusConditions.filter (fun c => c.typ == fileSystemResizePendingType)).length ≤ 1) :
    (resizeAnnApplicable tabletSpec res →
      ∃ requested,
        tabletSpec.dataVolumePVCSpec.bind (fun ps => List.lookup resourceStorage ps.requests) =
          some requested ∧
        updatePVCFilesystemResize tabletSpec res =
          setEntry tabletSpec.annotations pvcFilesystemResizeAnnKey requested.str)
    ∧ (¬ resizeAnnApplicable tabletSpec res →
        updatePVCFilesystemResize tabletSpec res = tabletSpec.annotations) := by
  constructor
  · rintro ⟨ps, pvc, req, h1, h2, h3, h4, h5⟩
    refine ⟨req, by rw [h1]; exact h3, ?_⟩
    have hne : ((((List.lookup resourceStorage pvc.specRequests).getD zeroQuantity).value != req.value) : Bool) = false := by
      simp [bne_iff_ne, h4]
    have hchk : checkPVCFileSystemResizeCondition pvc = true :=
      (checkFSResizeLoop_true_iff pvc.statusConditions (huniq pvc h2)).mpr h5
    simp [updatePVCFilesystemResize, h1, h2, h3, hne, hchk]
  · intro hna
    cases hps : tabletSpec.dataVolumePVCSpec with
    | none => simp [updatePVCFilesystemResize, hps]
    | some ps =>
      cases res with
      | error e => simp [updatePVCFilesystemResize, hps]
      | ok pvc =>
        cases hl : List.lookup resourceStorage ps.requests with
        | none => simp [updatePVCFilesystemResize, hps, hl]
        | some req =>
          by_cases hvv : (((List.lookup resourceStorage pvc.specRequests).getD zeroQuantity).value = req.value)
          · cases hchk : checkPVCFileSystemResizeCondition pvc with
            | true =>
              exfalso
              apply hna
              have h5 := (checkFSResizeLoop_true_iff pvc.statusConditions (huniq pvc rfl)).mp hchk
              exact ⟨ps, pvc, req, hps, rfl, hl, hvv, h5⟩
            | false =>
              have hne : ((((List.lookup resourceStorage pvc.specRequests).getD zeroQuantity).value != req.value) : Bool) = false := by
                simp [bne_iff_ne, hvv]
              simp [updatePVCFilesystemResize, hps, hl, hne, hchk]
          · have hne : ((((List.lookup resourceStorage pvc.specRequests).getD zeroQuantity).value != req.value) : Bool) = true := by
              simp [bne_iff_ne, hvv]
            simp [updatePVCFilesystemResize, hps, hl, hne]

/-- Concrete tablet spec used to instantiate the resize theorem. -/
def resizeSpecExample : vttablet.Spec :=
  { globalLockserver := ""
    labels := []
    images := ""
    imagePullPolicies := ""
    imagePullSecrets := ""
    index := 1
    keyRange := ⟨"-"⟩
    tabAlias := ⟨"c", 1⟩
    aliasStr := "c-1"
    zone := ""
    vttablet := ⟨[], ""⟩
    mysqld := none
    externalDatastore := none
    typ := "replica"
    dataVolumePVCSpec := some ⟨[(resourceStorage, ⟨10, "10Gi"⟩)], ""⟩
    dataVolumePVCName := "p"
    keyspaceName := "k"
    databaseName := ""
    databaseInitScriptSecret := ""
    annotations := [("a", "b")]
    backupLocation := none
    backupEngine := ""
    affinity := none
    extraEnv := none
    extraVolumes := none
    extraLabels := []
    initContainers := none
    sidecarContainers := none
    extraVolumeMounts := none
    tolerations := none
    topologySpreadConstraints := none }

/-- Concrete PVC whose current request matches the spec request and whose
FileSystemResizePending condition is True. -/
def resizePVCExample : PersistentVolumeClaim :=
  ⟨[(resourceStorage, ⟨10, "10000000000"⟩)],
   [⟨fileSystemResizePendingType, ConditionStatus.condTrue⟩]⟩

/-- Closed instance of updatePVCFilesystemResize_iff: the applicable case
writes the resize annotation with the String() form of the request. -/
theorem updatePVCFilesystemResize_iff_witness :
    updatePVCFilesystemResize resizeSpecExample (Except.ok resizePVCExample) =
      setEntry resizeSpecExample.annotations pvcFilesystemResizeAnnKey "10Gi" := by
  have h := (updatePVCFilesystemResize_iff resizeSpecExample (Except.ok resizePVCExample)
    (by
      intro pvc hp
      injection hp with h2
      subst h2
      decide)).1
  have happ : resizeAnnApplicable resizeSpecExample (Except.ok resizePVCExample) :=
    ⟨⟨[(resourceStorage, ⟨10, "10Gi"⟩)], ""⟩, resizePVCExample, ⟨10, "10Gi"⟩, rfl, rfl,
     by decide, by decide,
     ⟨⟨fileSystemResizePendingType, ConditionStatus.condTrue⟩, by decide, rfl, rfl⟩⟩
  obtain ⟨r, hr, heq⟩ := h happ
  have hr2 : some (Quantity.mk 10 "10Gi") = some r := by
    rw [← hr]
    decide
  injection hr2 with hr3
  rw [← hr3] at heq
  exact heq

theorem vttablet_UID_inj (c1 k1 : String) (kr1 : KeyRange) (t1 : String) (i1 : Nat)
    (c2 k2 : String) (kr2 : KeyRange) (t2 : String) (i2 : Nat)
    (h : vttablet.UID c1 k1 kr1 t1 i1 = vttablet.UID c2 k2 kr2 t2 i2) :
    c1 = c2 ∧ k1 = k2 ∧ kr1.safeName = kr2.safeName ∧ t1 = t2 ∧ i1 = i2 := by
  unfold vttablet.UID at h
  rw [Nat.pair_eq_pair] at h
  obtain ⟨h1, h⟩ := h
  rw [Nat.pair_eq_pair] at h
  obtain ⟨h2, h⟩ := h
  rw [Nat.pair_eq_pair] at h
  obtain ⟨h3, h⟩ := h
  rw [Nat.pair_eq_pair] at h
  obtain ⟨h4, h5⟩ := h
  exact ⟨strEnc_inj _ _ h1, strEnc_inj _ _ h2, strEnc_inj _ _ h3, strEnc_inj _ _ h4, h5⟩

theorem mem_poolTablets (vts : VitessShard) (l : StrMap) (pool : TabletPool)
    (t : vttablet.Spec) (ht : t ∈ poolTablets vts l pool) :
    ∃ k, k < pool.replicas.toNat ∧ t = poolTabletSpec vts l pool (k + 1) := by
  unfold poolTablets at ht
  obtain ⟨k, hk, ht⟩ := List.mem_map.mp ht
  exact ⟨k, List.mem_range.mp hk, ht.symm⟩

/-- C7: the desired-state compiler expands each pool into ordinals exactly
1..replicas in order with no gaps; every emitted tablet carries the UID
computed purely from (cell, keyspace, key range, pool type, ordinal); and
two pools of the same shard differing in cell or type never share a UID. -/
theorem vttabletSpecs_ordinals_and_uid (vts : VitessShard) (l : StrMap) :
    vttabletSpecs vts l = vts.spec.tabletPools.flatMap (poolTablets vts l)
    ∧ (∀ pool ∈ vts.spec.tabletPools,
        (poolTablets vts l pool).map (fun t => t.index) =
          (List.range pool.replicas.toNat).map (fun k => ((k + 1 : Nat) : Int)))
    ∧ (∀ pool ∈ vts.spec.tabletPools, ∀ t ∈ poolTablets vts l pool,
        t.tabAlias.cell = pool.cell ∧
        t.tabAlias.uid = vttablet.UID pool.cell (mapGet vts.labels keyspaceLabel)
          vts.spec.keyRange pool.typ t.index.toNat)
    ∧ (∀ p1 ∈ vts.spec.tabletPools, ∀ p2 ∈ vts.spec.tabletPools,
        p1.cell ≠ p2.cell ∨ p1.typ ≠ p2.typ →
        ∀ t1 ∈ poolTablets vts l p1, ∀ t2 ∈ poolTablets vts l p2,
          t1.tabAlias.uid ≠ t2.tabAlias.uid) := by
  refine ⟨rfl, ?_, ?_, ?_⟩
  · intro pool _
    unfold poolTablets
    rw [List.map_map]
    rfl
  · intro pool _ t ht
    obtain ⟨k, -, ht⟩ := mem_poolTablets vts l pool t ht
    subst ht
    exact ⟨rfl, rfl⟩
  · intro p1 _ p2 _ hne t1 ht1 t2 ht2
    obtain ⟨k1, -, ht1⟩ := mem_poolTablets vts l p1 t1 ht1
    obtain ⟨k2, -, ht2⟩ := mem_poolTablets vts l p2 t2 ht2
    subst ht1
    subst ht2
    intro heq
    have hinj := vttablet_UID_inj _ _ _ _ _ _ _ _ _ _ heq
    rcases hne with hne | hne
    · exact hne hinj.1
    · exact hne hinj.2.2.2.1

/-- A minimal pool used to instantiate the compiler theorems. -/
def poolW1 : TabletPool :=
  { cell := "a"
    typ := "r"
    replicas := 1
    backupLocationName := ""
    vttablet := ⟨[("f", "1")], "tpl"⟩
    mysqld := none
    externalDatastore := none
    dataVolumeClaimTemplate := some ⟨[(resourceStorage, ⟨1, "1Gi"⟩)], ""⟩
    annotations := []
    affinity := none
    extraEnv := none
    extraVolumes := none
    extraLabels := []
    initContainers := none
    sidecarContainers := none
    extraVolumeMounts := none
    tolerations := none
    topologySpreadConstraints := none }

/-- A second pool of the same shard in another cell. -/
def poolW2 : TabletPool := { poolW1 with cell := "b" }

/-- A minimal shard with the two pools. -/
def vtsW : VitessShard :=
  { namespaceName := "n"
    labels := [(clusterLabel, "c"), (keyspaceLabel, "k")]
    generation := 1
    spec :=
      { keyRange := ⟨"x"⟩
        name := "x"
        tabletPools := [poolW1, poolW2]
        backupLocations := []
        extraVitessFlags := [("g", "0")]
        zoneMap := []
        globalLockserver := ""
        images := ""
        imagePullPolicies := ""
        imagePullSecrets := ""
        databaseName := ""
        databaseInitScriptSecret := ""
        backupEngine := "" } }

/-- Closed instance of vttabletSpecs_ordinals_and_uid on a two-pool shard:
the one-replica pool gets exactly ordinal 1, and the two pools in distinct
cells get distinct UIDs. -/
theorem vttabletSpecs_ordinals_and_uid_witness :
    (poolTablets vtsW [] poolW1).map (fun t => t.index) = [(1 : Int)]
    ∧ (poolTabletSpec vtsW [] poolW1 1).tabAlias.uid ≠
        (poolTabletSpec vtsW [] poolW2 1).tabAlias.uid := by
  have h := vttabletSpecs_ordinals_and_uid vtsW []
  constructor
  · rw [h.2.1 poolW1 (List.mem_cons_self _ _)]
    rfl
  · exact h.2.2.2 poolW1 (List.mem_cons_self _ _) poolW2
      (List.mem_cons_of_mem _ (List.mem_cons_self _ _))
      (Or.inl (by decide))
      (poolTabletSpec vtsW [] poolW1 1) (by decide)
      (poolTabletSpec vtsW [] poolW2 1) (by decide)

/-- The alias list a pool contributes, as a function of only the keyspace,
key range, cell, type and replica count. -/
def aliasListOf (ks : String) (kr : KeyRange) (cell ty : String) (n : Nat) : List TabletAlias :=
  (List.range n).map (fun k => TabletAlias.mk cell (vttablet.UID cell ks kr ty (k + 1)))

theorem poolTablets_alias_map (vts : VitessShard) (l : StrMap) (pool : TabletPool) :
    (poolTablets vts l pool).map (fun t => t.tabAlias) =
      aliasListOf (mapGet vts.labels keyspaceLabel) vts.spec.keyRange
        pool.cell pool.typ pool.replicas.toNat := by
  unfold poolTablets aliasListOf
  rw [List.map_map]
  rfl

theorem flatMap_aliasListOf (ks : String) (kr : KeyRange) :
    ∀ ps1 ps2 : List TabletPool,
      ps1.map (fun p => (p.cell, p.typ, p.replicas)) =
        ps2.map (fun p => (p.cell, p.typ, p.replicas)) →
      ps1.flatMap (fun p => aliasListOf ks kr p.cell p.typ p.replicas.toNat) =
        ps2.flatMap (fun p => aliasListOf ks kr p.cell p.typ p.replicas.toNat) := by
  intro ps1
  induction ps1 with
  | nil =>
    intro ps2 h
    cases ps2 with
    | nil => rfl
    | cons q r => simp at h
  | cons p r1 ih =>
    intro ps2 h
    cases ps2 with
    | nil => simp at h
    | cons q r2 =>
      rw [List.map_cons, List.map_cons] at h
      injection h with h1 h2
      rw [Prod.mk.injEq] at h1
      obtain ⟨hc, h1⟩ := h1
      rw [Prod.mk.injEq] at h1
      obtain ⟨ht, hr⟩ := h1
      rw [List.flatMap_cons, List.flatMap_cons, hc, ht, hr, ih r2 h2]

/-- C9: the desired-state compiler is deterministic and free of side
effects on its inputs.  Determinism: the emitted UID/alias list depends only
on the keyspace label, the key range and the per-pool (cell, type, replicas)
data, so two runs over shard specs agreeing there - whatever their other
fields or the label argument - produce the identical alias list; in
particular two runs on one shard coincide.  Purity of the template: every
emitted tablet holds a copy of the pool template whose ExtraFlags is the
merge of the global flags overridden by the pool flags, every other template
component being carried over unchanged, the pool template itself staying
untouched in the (immutable) shard value. -/
theorem vttabletSpecs_deterministic_and_pure (vts1 vts2 : VitessShard) (l1 l2 : StrMap)
    (hks : mapGet vts1.labels keyspaceLabel = mapGet vts2.labels keyspaceLabel)
    (hkr : vts1.spec.keyRange = vts2.spec.keyRange)
    (hpools : vts1.spec.tabletPools.map (fun p => (p.cell, p.typ, p.replicas)) =
        vts2.spec.tabletPools.map (fun p => (p.cell, p.typ, p.replicas))) :
    (vttabletSpecs vts1 l1).map (fun t => t.tabAlias) =
      (vttabletSpecs vts2 l2).map (fun t => t.tabAlias)
    ∧ (∀ pool ∈ vts1.spec.tabletPools, ∀ t ∈ poolTablets vts1 l1 pool,
        t.vttablet = { pool.vttablet with
          extraFlags := update.StringMap (update.StringMap [] vts1.spec.extraVitessFlags)
            pool.vttablet.extraFlags }) := by
  constructor
  · unfold vttabletSpecs
    rw [List.map_flatMap, List.map_flatMap]
    have e1 : ∀ vts : VitessShard, ∀ l,
        (fun p => (poolTablets vts l p).map (fun t => t.tabAlias)) =
          fun p : TabletPool => aliasListOf (mapGet vts.labels keyspaceLabel)
            vts.spec.keyRange p.cell p.typ p.replicas.toNat := by
      intro vts l
      funext p
      exact poolTablets_alias_map vts l p
    rw [e1 vts1 l1, e1 vts2 l2, hks, hkr]
    exact flatMap_aliasListOf _ _ _ _ hpools
  · intro pool _ t ht
    obtain ⟨k, -, ht⟩ := mem_poolTablets vts1 l1 pool t ht
    subst ht
    rfl

/-- A copy of the minimal shard differing in images and cluster label. -/
def vtsW2 : VitessShard :=
  { vtsW with
    labels := [(clusterLabel, "c2"), (keyspaceLabel, "k")]
    spec := { vtsW.spec with images := "other" } }

/-- Closed instance of vttabletSpecs_deterministic_and_pure: two shard specs
agreeing on keyspace, key range and pool shape but differing in images,
cluster label and the label argument yield the same alias list, and the
emitted template is the pool template with only ExtraFlags replaced by the
merge. -/
theorem vttabletSpecs_deterministic_and_pure_witness :
    (vttabletSpecs vtsW []).map (fun t => t.tabAlias) =
      (vttabletSpecs vtsW2 [("z", "1")]).map (fun t => t.tabAlias)
    ∧ (poolTabletSpec vtsW [] poolW1 1).vttablet =
      { poolW1.vttablet with
        extraFlags := update.StringMap (update.StringMap [] vtsW.spec.extraVitessFlags)
          poolW1.vttablet.extraFlags } := by
  have h := vttabletSpecs_deterministic_and_pure vtsW vtsW2 [] [("z", "1")]
    (by decide) (by decide) (by decide)
  exact ⟨h.1, h.2 poolW1 (List.mem_cons_self _ _) (poolTabletSpec vtsW [] poolW1 1) (by decide)⟩

theorem lookup_podNewStatus (m : StatusMap) (t : vttablet.Spec) (a : String) :
    List.lookup a (podNewStatus m t) =
      if a = t.aliasStr then
        some { statusGet m t.aliasStr with
          running := ConditionStatus.condFalse
          ready := ConditionStatus.condFalse
          available := ConditionStatus.condFalse }
      else List.lookup a m := by
  unfold podNewStatus
  by_cases h : a = t.aliasStr
  · rw [if_pos h, h, lookup_setEntry_self]
  · rw [if_neg h, lookup_setEntry_ne _ _ _ _ h]

theorem lookup_pvcNewStatus (m : StatusMap) (t : vttablet.Spec) (a : String) :
    List.lookup a (pvcNewStatus m t) =
      if a = t.aliasStr then
        some { statusGet m t.aliasStr with dataVolumeBound := ConditionStatus.condFalse }
      else List.lookup a m := by
  unfold pvcNewStatus
  by_cases h : a = t.aliasStr
  · rw [if_pos h, h, lookup_setEntry_self]
  · rw [if_neg h, lookup_setEntry_ne _ _ _ _ h]

theorem init_fold_covers (ts : List vttablet.Spec) :
    ∀ (m : StatusMap) (a : String),
      (a ∈ ts.map (fun t => t.aliasStr) ∨ (List.lookup a m).isSome = true) →
      (List.lookup a
        (ts.foldl (fun m t => setEntry m t.aliasStr (NewVitessTabletStatus t.typ t.index)) m)).isSome = true := by
  induction ts with
  | nil =>
    intro m a h
    rcases h with h | h
    · cases h
    · exact h
  | cons t rest ih =>
    intro m a h
    rw [List.foldl_cons]
    apply ih
    by_cases he : a = t.aliasStr
    · right
      rw [he, lookup_setEntry_self]
      rfl
    · rcases h with h | h
      · rw [List.map_cons, List.mem_cons] at h
        rcases h with h | h
        · exact absurd h he
        · exact Or.inl h
      · right
        rw [lookup_setEntry_ne _ _ _ _ he]
        exact h

theorem pvc_fold_bound (ts : List vttablet.Spec) :
    ∀ (m : StatusMap) (a : String) (s0 : VitessTabletStatus),
      List.lookup a m = some s0 →
      ∃ s, List.lookup a
          (ts.foldl (fun m t => if t.dataVolumePVCSpec.isSome then pvcNewStatus m t else m) m) = some s
        ∧ ((∃ t ∈ ts, t.aliasStr = a ∧ t.dataVolumePVCSpec.isSome = true) →
            s.dataVolumeBound = ConditionStatus.condFalse)
        ∧ (s0.dataVolumeBound = ConditionStatus.condFalse →
            s.dataVolumeBound = ConditionStatus.condFalse) := by
  induction ts with
  | nil =>
    intro m a s0 h
    refine ⟨s0, h, ?_, fun hb => hb⟩
    rintro ⟨t, ht, -⟩
    cases ht
  | cons t rest ih =>
    intro m a s0 h
    rw [List.foldl_cons]
    cases hp : t.dataVolumePVCSpec.isSome with
    | true =>
      by_cases he : a = t.aliasStr
      · have hl : List.lookup a (pvcNewStatus m t) =
            some { statusGet m t.aliasStr with dataVolumeBound := ConditionStatus.condFalse } := by
          rw [lookup_pvcNewStatus, if_pos he]
        obtain ⟨s, hs, hx, hpres⟩ := ih (pvcNewStatus m t) a _ hl
        have hbf : s.dataVolumeBound = ConditionStatus.condFalse := hpres rfl
        exact ⟨s, hs, fun _ => hbf, fun _ => hbf⟩
      · have hl : List.lookup a (pvcNewStatus m t) = some s0 := by
          rw [lookup_pvcNewStatus, if_neg he]
          exact h
        obtain ⟨s, hs, hx, hpres⟩ := ih (pvcNewStatus m t) a s0 hl
        refine ⟨s, hs, ?_, hpres⟩
        rintro ⟨t2, ht2, ha2, hp2⟩
        rcases List.mem_cons.mp ht2 with ht2 | ht2
        · rw [ht2] at ha2
          exact absurd ha2.symm he
        · exact hx ⟨t2, ht2, ha2, hp2⟩
    | false =>
      obtain ⟨s, hs, hx, hpres⟩ := ih m a s0 h
      refine ⟨s, hs, ?_, hpres⟩
      rintro ⟨t2, ht2, ha2, hp2⟩
      rcases List.mem_cons.mp ht2 with ht2 | ht2
      · rw [ht2] at hp2
        rw [hp] at hp2
        exact Bool.noConfusion hp2
      · exact hx ⟨t2, ht2, ha2, hp2⟩

theorem pod_fold_off (ts : List vttablet.Spec) :
    ∀ (m : StatusMap) (a : String) (s0 : VitessTabletStatus),
      List.lookup a m = some s0 →
      ∃ s, List.lookup a (ts.foldl podNewStatus m) = some s
        ∧ s.dataVolumeBound = s0.dataVolumeBound
        ∧ (a ∈ ts.map (fun t => t.aliasStr) →
            s.running = ConditionStatus.condFalse ∧ s.ready = ConditionStatus.condFalse ∧
            s.available = ConditionStatus.condFalse)
        ∧ ((s0.running = ConditionStatus.condFalse ∧ s0.ready = ConditionStatus.condFalse ∧
            s0.available = ConditionStatus.condFalse) →
            (s.running = ConditionStatus.condFalse ∧ s.ready = ConditionStatus.condFalse ∧
            s.available = ConditionStatus.condFalse)) := by
  induction ts with
  | nil =>
    intro m a s0 h
    refine ⟨s0, h, rfl, ?_, fun hp => hp⟩
    intro ha
    cases ha
  | cons t rest ih =>
    intro m a s0 h
    rw [List.foldl_cons]
    by_cases he : a = t.aliasStr
    · have hget : statusGet m t.aliasStr = s0 := by
        unfold statusGet
        rw [← he, h]
        rfl
      have hl : List.lookup a (podNewStatus m t) =
          some { s0 with
            running := ConditionStatus.condFalse
            ready := ConditionStatus.condFalse
            available := ConditionStatus.condFalse } := by
        rw [lookup_podNewStatus, if_pos he, hget]
      obtain ⟨s, hs, hbound, hmem, hpres⟩ := ih (podNewStatus m t) a _ hl
      have hoff : s.running = ConditionStatus.condFalse ∧ s.ready = ConditionStatus.condFalse ∧
          s.available = ConditionStatus.condFalse := hpres ⟨rfl, rfl, rfl⟩
      exact ⟨s, hs, hbound, fun _ => hoff, fun _ => hoff⟩
    · have hl : List.lookup a (podNewStatus m t) = some s0 := by
        rw [lookup_podNewStatus, if_neg he]
        exact h
      obtain ⟨s, hs, hbound, hmem, hpres⟩ := ih (podNewStatus m t) a s0 hl
      refine ⟨s, hs, hbound, ?_, hpres⟩
      intro ha
      rw [List.map_cons, List.mem_cons] at ha
      rcases ha with ha | ha
      · exact absurd ha he
      · exact hmem ha

/-- C8: in a pass with no live objects, every desired tablet (as compiled by
vttabletSpecs) gets a status entry, created before any live object is read,
and the New callbacks leave it with Running=false, Ready=false,
Available=false, and - when the tablet has a data-volume claim -
DataVolumeBound=false. -/
theorem reconcileTablets_status_preseeded (vts : VitessShard) (t : vttablet.Spec)
    (ht : t ∈ vttabletSpecs vts (reconcileLabels vts)) :
    ∃ s, List.lookup t.aliasStr (reconcileTabletsStatusNoLive vts) = some s
      ∧ s.running = ConditionStatus.condFalse
      ∧ s.ready = ConditionStatus.condFalse
      ∧ s.available = ConditionStatus.condFalse
      ∧ (t.dataVolumePVCSpec.isSome = true → s.dataVolumeBound = ConditionStatus.condFalse) := by
  have hmem : t.aliasStr ∈ (vttabletSpecs vts (reconcileLabels vts)).map (fun t => t.aliasStr) :=
    List.mem_map_of_mem _ ht
  have h0 : (List.lookup t.aliasStr
      (initTabletStatuses (vttabletSpecs vts (reconcileLabels vts)))).isSome = true := by
    unfold initTabletStatuses
    exact init_fold_covers _ [] _ (Or.inl hmem)
  obtain ⟨s0, hs0⟩ := Option.isSome_iff_exists.mp h0
  obtain ⟨s1, hs1, hbf, -⟩ := pvc_fold_bound (vttabletSpecs vts (reconcileLabels vts))
    (initTabletStatuses (vttabletSpecs vts (reconcileLabels vts))) t.aliasStr s0 hs0
  obtain ⟨s, hs, hbound, hoff, -⟩ := pod_fold_off (vttabletSpecs vts (reconcileLabels vts))
    _ t.aliasStr s1 hs1
  have hofff := hoff hmem
  refine ⟨s, hs, hofff.1, hofff.2.1, hofff.2.2, ?_⟩
  intro hp
  rw [hbound]
  exact hbf ⟨t, ht, rfl, hp⟩

/-- Closed instance of reconcileTablets_status_preseeded on the two-pool
shard: the first desired tablet has a status entry with all pod conditions
false and, since it has a data volume, DataVolumeBound false. -/
theorem reconcileTablets_status_preseeded_witness :
    ∃ s, List.lookup (poolTabletSpec vtsW (reconcileLabels vtsW) poolW1 1).aliasStr
        (reconcileTabletsStatusNoLive vtsW) = some s
      ∧ s.running = ConditionStatus.condFalse
      ∧ s.ready = ConditionStatus.condFalse
      ∧ s.available = ConditionStatus.condFalse
      ∧ ((poolTabletSpec vtsW (reconcileLabels vtsW) poolW1 1).dataVolumePVCSpec.isSome = true →
          s.dataVolumeBound = ConditionStatus.condFalse) :=
  reconcileTablets_status_preseeded vtsW (poolTabletSpec vtsW (reconcileLabels vtsW) poolW1 1)
    (by decide)
